import Mathlib

/-!
Shallow embedding of the team-balancing core of `src/utils/teamPairing.ts`
(LiamCavens/team-organiser), together with theorems settling the frozen
claims about its specification.

Modelling conventions:
* JS `number` player ratings and ids are modelled as `Int` (all code paths
  use integer arithmetic on them).
* `Math.random()` is modelled by an explicit random source `Rng`: a stream
  `g : Nat → Nat` together with a position counter.  Each draw
  `Math.floor(Math.random() * bound)` becomes `g k % bound`, which ranges
  over exactly `0 .. bound-1`; quantifying over `g` quantifies over every
  behaviour of the random source.  Functions that consume randomness thread
  the `Rng` explicitly, in source call order.
* `Array.prototype.sort` with comparator `(a, b) => b.rating - a.rating` is
  (per the ECMAScript spec) a stable sort, so its result is the unique
  rating-descending, stable reordering; `sortDesc` below (a stable insertion
  sort) computes exactly that reordering.
* `throw new Error(msg)` is modelled by `Except.error msg`.
-/

namespace TeamOrganiser

/-- `Player` record from `teamPairing.ts` lines 1-5. -/
structure Player where
  id : Int
  name : String
  rating : Int
deriving DecidableEq

/-- `SubstitutePair` from lines 7-10. -/
structure SubstitutePair where
  substitute : Player
  rotationPlayer : Player
deriving DecidableEq

/-- The anonymous `substituteInfo` record type of `TeamPair` (lines 16-19);
`teamWithSub : 1 | 2` is modelled as a `Nat` that is `1` or `2`. -/
structure SubstituteData where
  teamWithSub : Nat
  substitutePair : SubstitutePair
deriving DecidableEq

/-- `TeamPair` from lines 12-20; the optional `substituteInfo` field becomes
an `Option`. -/
structure TeamPair where
  team1 : List Player
  team2 : List Player
  ratingDifference : Int
  substituteInfo : Option SubstituteData
deriving DecidableEq

/-- Explicit model of the process random source: a stream of raw values and
a position.  One `Math.floor(Math.random() * bound)` call reads the stream
at the current position modulo `bound` and advances the position. -/
structure Rng where
  g : Nat → Nat
  k : Nat

/-- One draw in `0 .. bound-1` (the range of
`Math.floor(Math.random() * bound)`), advancing the stream. -/
def Rng.next (r : Rng) (bound : Nat) : Nat × Rng :=
  (r.g r.k % bound, ⟨r.g, r.k + 1⟩)

/-- Stable insertion of a player into a rating-descending list: `p` goes in
front of the first strictly-lower-rated element, after any equally rated
ones.  Helper for `sortDesc`. -/
def insertDesc (p : Player) : List Player → List Player
  | [] => [p]
  | q :: qs => if q.rating < p.rating then p :: q :: qs else q :: insertDesc p qs

/-- The unique stable rating-descending reordering of `l`: the result of the
source's `.sort((a, b) => b.rating - a.rating)` (ECMAScript sorts are
stable, so the comparator determines the result uniquely; a stable insertion
sort computes it). -/
def sortDesc (l : List Player) : List Player :=
  l.foldl (fun acc p => insertDesc p acc) []

/-- The two squads and their running rating sums during the greedy
distribution loop (lines 46-61). -/
structure GreedyState where
  team1 : List Player
  team2 : List Player
  team1Rating : Int
  team2Rating : Int
deriving DecidableEq

/-- The greedy distribution loop of lines 53-61: each player, in order, is
pushed onto whichever squad currently has the lower rating sum, ties
favouring `team1`. -/
def greedyAssign : List Player → GreedyState → GreedyState
  | [], st => st
  | p :: rest, st =>
    if st.team1Rating ≤ st.team2Rating then
      greedyAssign rest ⟨st.team1 ++ [p], st.team2, st.team1Rating + p.rating, st.team2Rating⟩
    else
      greedyAssign rest ⟨st.team1, st.team2 ++ [p], st.team1Rating, st.team2Rating + p.rating⟩

/-- `findClosestRatingPlayer` (lines 104-114): `Array.prototype.reduce`
without an initial value folds the tail with the head as accumulator;
`null` on an empty array becomes `none`. -/
def findClosestRatingPlayer (targetPlayer : Player) (players : List Player) : Option Player :=
  match players with
  | [] => none
  | p :: rest =>
    some (rest.foldl
      (fun closest current =>
        if abs (current.rating - targetPlayer.rating) < abs (closest.rating - targetPlayer.rating)
        then current else closest)
      p)

/-- Lines 35-41: for an odd-sized pool, the substitute is the element at
index `⌊n/2⌋` of the rating-descending sort; for an even pool there is
none.  (The source's `|| null` fallback can only fire on an empty list,
where the branch is not reached.) -/
def chooseSubstitute (players : List Player) : Option Player :=
  if players.length % 2 == 1 then
    (sortDesc players).get? (players.length / 2)
  else
    none

/-- Lines 31 and 40: the working set; for an odd pool every player whose id
equals the substitute's id is filtered out of the original list, otherwise
it is the (copied) original list. -/
def playersToBalance (players : List Player) : List Player :=
  match chooseSubstitute players with
  | some s => players.filter fun p => p.id ≠ s.id
  | none => players

/-- Lines 44-61: the state of the two squads after the greedy pass over the
rating-descending working set, before any substitute is appended. -/
def preSubSplit (players : List Player) : GreedyState :=
  greedyAssign (sortDesc (playersToBalance players)) ⟨[], [], 0, 0⟩

/-- The body of `balanceTeams` after its guard (lines 30-98).  Note that
lines 63-89 push the substitute onto the lower-sum squad *without* updating
`team1Rating`/`team2Rating`, and line 91 computes `ratingDifference` from
those (pre-substitute) accumulators. -/
def balanceTeamsCore (players : List Player) : TeamPair :=
  let st := preSubSplit players
  match chooseSubstitute players with
  | some s =>
    let teamWithSub : Nat := if st.team1Rating ≤ st.team2Rating then 1 else 2
    let targetTeam := (if teamWithSub = 1 then st.team1 else st.team2) ++ [s]
    let rotationPlayer :=
      findClosestRatingPlayer s (targetTeam.filter fun p => p.id ≠ s.id)
    { team1 := if teamWithSub = 1 then targetTeam else st.team1
      team2 := if teamWithSub = 2 then targetTeam else st.team2
      ratingDifference := abs (st.team1Rating - st.team2Rating)
      substituteInfo :=
        match rotationPlayer with
        | some rp => some ⟨teamWithSub, ⟨s, rp⟩⟩
        | none => none }
  | none =>
    { team1 := st.team1
      team2 := st.team2
      ratingDifference := abs (st.team1Rating - st.team2Rating)
      substituteInfo := none }

/-- The error message thrown at lines 27, 138 and 167. -/
def insufficientMsg : String := "Need at least 2 players to create teams"

/-- `balanceTeams` (lines 25-99), the CoreSplit operation. -/
def balanceTeams (players : List Player) : Except String TeamPair :=
  if players.length < 2 then .error insufficientMsg
  else .ok (balanceTeamsCore players)

/-- `getRandomVariation` (lines 129-131): a uniform draw in
`[-variation, +variation]`.  The source passes only non-negative variations,
so the parameter is a `Nat`. -/
def getRandomVariation (variation : Nat) (r : Rng) : Int × Rng :=
  let d := r.next (variation * 2 + 1)
  ((d.1 : Int) - (variation : Int), d.2)

/-- `randomizePlayerRatings` (lines 119-124): a fresh copy of the list in
which each player's rating is perturbed by an independent draw and clamped
to `[1, 100]`; `Array.prototype.map` evaluates left to right, so the draws
are consumed in list order. -/
def randomizePlayerRatings : List Player → Nat → Rng → List Player × Rng
  | [], _, r => ([], r)
  | p :: ps, variation, r =>
    let d := getRandomVariation variation r
    let rest := randomizePlayerRatings ps variation d.2
    ({ p with rating := max 1 (min 100 (p.rating + d.1)) } :: rest.1, rest.2)

/-- Swap the elements at positions `i` and `j` of a list (both in bounds,
else unchanged) — the body of one Fisher-Yates iteration (lines 223-225). -/
def listSwap (l : List Player) (i j : Nat) : List Player :=
  match l.get? i, l.get? j with
  | some x, some y => (l.set i y).set j x
  | _, _ => l

/-- The Fisher-Yates loop of lines 221-226, indexed by the current loop
variable: at index `i+1` it draws `j` uniformly in `0 .. i+1` and swaps
positions `i+1` and `j`, then continues at `i`; the loop stops once the
index reaches `0`. -/
def fisherYates (l : List Player) (r : Rng) : Nat → List Player × Rng
  | 0 => (l, r)
  | i + 1 =>
    let d := r.next (i + 2)
    fisherYates (listSwap l (i + 1) d.1) d.2 i

/-- `shuffleArray` (lines 219-228) on a list of players: Fisher-Yates over a
copy, starting at index `length - 1`. -/
def shuffleArray (l : List Player) (r : Rng) : List Player × Rng :=
  fisherYates l r (l.length - 1)

/-- The shared shape of the search loops of `findBestTeamBalance`
(lines 144-153) and `findRandomizedTeamBalance` (lines 176-185): each
iteration perturbs the ratings of the *original* list, shuffles the
perturbed copy, runs `balanceTeams` on it (an error there would propagate)
and keeps the result when its `ratingDifference` is strictly lower. -/
def searchLoop (players : List Player) (variation : Nat) :
    TeamPair → Rng → Nat → Except String TeamPair × Rng
  | best, r, 0 => (.ok best, r)
  | best, r, n + 1 =>
    let rp := randomizePlayerRatings players variation r
    let sh := shuffleArray rp.1 rp.2
    match balanceTeams sh.1 with
    | .error e => (.error e, sh.2)
    | .ok balance =>
      if balance.ratingDifference < best.ratingDifference then
        searchLoop players variation balance sh.2 n
      else
        searchLoop players variation best sh.2 n

/-- `findBestTeamBalance` (lines 136-156), the BestOfN operation: seed with
`balanceTeams` on the unmodified input, then `iterations` search rounds with
the default rating variation `5`. -/
def findBestTeamBalance (players : List Player) (iterations : Nat) (r : Rng) :
    Except String TeamPair × Rng :=
  if players.length < 2 then (.error insufficientMsg, r)
  else
    match balanceTeams players with
    | .error e => (.error e, r)
    | .ok best => searchLoop players 5 best r iterations

/-- `findRandomizedTeamBalance` (lines 161-188), the RandomizedBestOfN
operation: the seed itself is already rating-perturbed, then `iterations`
search rounds with the given variation. -/
def findRandomizedTeamBalance (players : List Player) (ratingVariation : Nat)
    (iterations : Nat) (r : Rng) : Except String TeamPair × Rng :=
  if players.length < 2 then (.error insufficientMsg, r)
  else
    let rp := randomizePlayerRatings players ratingVariation r
    match balanceTeams rp.1 with
    | .error e => (.error e, rp.2)
    | .ok best => searchLoop players ratingVariation best rp.2 iterations

/-- The error message thrown at line 195. -/
def multiInsufficientMsg (pairCount : Nat) : String :=
  "Need at least " ++ toString (pairCount * 2) ++ " players to create "
    ++ toString pairCount ++ " team pairs"

/-- `shuffled.slice(startIndex, endIndex)` (line 206). -/
def listSlice (l : List Player) (startIndex endIndex : Nat) : List Player :=
  (l.drop startIndex).take (endIndex - startIndex)

/-- The chunk handed to iteration `i` of the loop of lines 203-211: the
slice from `i * playersPerPair` up to the next multiple, the last chunk
absorbing the remainder. -/
def multiChunk (shuffled : List Player) (totalLen pairCount playersPerPair i : Nat) :
    List Player :=
  listSlice shuffled (i * playersPerPair)
    (if i = pairCount - 1 then totalLen else (i + 1) * playersPerPair)

/-- The loop of lines 203-211 over the list of indices `0 .. pairCount-1`:
chunks of size at least 2 contribute a `findBestTeamBalance` with budget 50
(an error there would propagate and abort the loop), smaller chunks are
silently skipped. -/
def multiLoop (shuffled : List Player) (totalLen pairCount playersPerPair : Nat) :
    List Nat → Rng → Except String (List TeamPair) × Rng
  | [], r => (.ok [], r)
  | i :: is, r =>
    let pairPlayers := multiChunk shuffled totalLen pairCount playersPerPair i
    if 2 ≤ pairPlayers.length then
      match findBestTeamBalance pairPlayers 50 r with
      | (.error e, r2) => (.error e, r2)
      | (.ok tp, r2) =>
        match multiLoop shuffled totalLen pairCount playersPerPair is r2 with
        | (.ok rest, r3) => (.ok (tp :: rest), r3)
        | (.error e, r3) => (.error e, r3)
    else
      multiLoop shuffled totalLen pairCount playersPerPair is r

/-- `createMultipleTeamPairs` (lines 193-214), the MultiMatchSplit
operation: one shuffle of the pool, then per-chunk BestOfN. -/
def createMultipleTeamPairs (players : List Player) (pairCount : Nat) (r : Rng) :
    Except String (List TeamPair) × Rng :=
  if players.length < pairCount * 2 then
    (.error (multiInsufficientMsg pairCount), r)
  else
    let sh := shuffleArray players r
    let playersPerPair := players.length / pairCount
    multiLoop sh.1 players.length pairCount playersPerPair
      (List.range pairCount) sh.2

/-- The record returned by `calculateTeamStats` (lines 233-254). -/
structure TeamStats where
  totalRating : Int
  averageRating : Int
  playerCount : Nat
  minRating : Int
  maxRating : Int
deriving DecidableEq

/-- `calculateTeamStats` (lines 233-254).  `Math.round(total / count)`
rounds half toward positive infinity, i.e. `⌊(2·total + count) / (2·count)⌋`
with floor division. -/
def calculateTeamStats (players : List Player) : TeamStats :=
  match players with
  | [] => ⟨0, 0, 0, 0, 0⟩
  | p :: ps =>
    let totalRating := (players.map fun q => q.rating).sum
    { totalRating
      averageRating :=
        Int.fdiv (2 * totalRating + (players.length : Int)) (2 * (players.length : Int))
      playerCount := players.length
      minRating := (ps.map fun q => q.rating).foldl min p.rating
      maxRating := (ps.map fun q => q.rating).foldl max p.rating }

/-! ### Derived definitions used to state the claims -/

/-- Sum of the ratings of a squad. -/
def ratingSum (l : List Player) : Int :=
  (l.map fun p => p.rating).sum

/-- The statement of claim C1 at one input, as a decidable check: the
returned `ratingDifference` equals the absolute difference of the *final*
squads' rating sums, substitute included. -/
def diffMatchesFinalSums (players : List Player) : Bool :=
  match balanceTeams players with
  | .ok tp => tp.ratingDifference == abs (ratingSum tp.team1 - ratingSum tp.team2)
  | .error _ => true

/-- The inputs fed to `balanceTeams` by the successive iterations of the
search loop (lines 144-148 / 176-180): for each round, the rating-perturbed
copy of the original list, shuffled, with the random source threaded exactly
as in `searchLoop`. -/
def trialInputs (players : List Player) (variation : Nat) : Rng → Nat → List (List Player)
  | _, 0 => []
  | r, n + 1 =>
    let rp := randomizePlayerRatings players variation r
    let sh := shuffleArray rp.1 rp.2
    sh.1 :: trialInputs players variation sh.2 n

/-- The statement of claim C2 at one input, as a decidable check: every
trial input of BestOfN is a permutation of the original player records
(ratings unmodified, only ordering varies). -/
def trialsPreserveRatings (players : List Player) (r : Rng) (iterations : Nat) : Bool :=
  (trialInputs players 5 r iterations).all fun t => t.isPerm players

/-- `mid` is a rating-perturbed copy of `orig` with variation `v`: same
length, and positionwise the same id and name with the rating moved by some
`d ∈ [-v, v]` and clamped to `[1, 100]` — what `randomizePlayerRatings`
produces. -/
def PerturbedCopy (v : Nat) (orig mid : List Player) : Prop :=
  mid.length = orig.length ∧
  ∀ k, k < orig.length →
    ∃ pm po, mid.get? k = some pm ∧ orig.get? k = some po ∧
      pm.id = po.id ∧ pm.name = po.name ∧
      ∃ d : Int, -(v : Int) ≤ d ∧ d ≤ (v : Int) ∧
        pm.rating = max 1 (min 100 (po.rating + d))

/-- The statement of claim C3 at the concrete 5-player scenario, as a
decidable check: substitute rated 60, pre-substitute squads summing 140 and
100, substitute joining the lower squad for final sums 140/160,
`ratingDifference = 20`, and the substitute's squad holding the ratings 40
and 20. -/
def claimC3Check (players : List Player) : Bool :=
  match balanceTeams players with
  | .ok tp =>
    match tp.substituteInfo with
    | some info =>
      let subTeam := if info.teamWithSub = 1 then tp.team1 else tp.team2
      let otherTeam := if info.teamWithSub = 1 then tp.team2 else tp.team1
      info.substitutePair.substitute.rating == 60 &&
      ratingSum otherTeam == 140 &&
      ratingSum subTeam == 160 &&
      tp.ratingDifference == 20 &&
      ((subTeam.filter fun p => p.id ≠ info.substitutePair.substitute.id).map
        fun p => p.rating) == [40, 20]
    | none => false
  | .error _ => false

/-- The statement of the first half of claim C4 at one input, as a decidable
check: before the substitute is appended, exactly one of the two squads
contains one more player than the other. -/
def preSubSizesDifferByOne (players : List Player) : Bool :=
  let st := preSubSplit players
  st.team1.length == st.team2.length + 1 || st.team2.length == st.team1.length + 1

/-- Rng-threaded signature for CoreSplit: the body of `balanceTeams`
contains no `Math.random()` call, so the embedding neither consumes nor
depends on the random source.  (Its only other input-order sensitivity, the
ECMAScript sort, is stable and hence deterministic.) -/
def balanceTeamsRng (players : List Player) (r : Rng) : Except String TeamPair × Rng :=
  (balanceTeams players, r)

/-! ### Concrete inputs used by counterexamples and witnesses -/

/-- Three players rated 3, 2, 1 — a minimal odd pool. -/
def poolOdd3 : List Player := [⟨1, "A", 3⟩, ⟨2, "B", 2⟩, ⟨3, "C", 1⟩]

/-- The spec's 5-player scenario: ratings 100, 80, 60, 40, 20. -/
def pool5 : List Player :=
  [⟨1, "A", 100⟩, ⟨2, "B", 80⟩, ⟨3, "C", 60⟩, ⟨4, "D", 40⟩, ⟨5, "E", 20⟩]

/-- Five players with one strong outlier: ratings 10, 1, 1, 1, 1. -/
def poolSkewed5 : List Player :=
  [⟨1, "A", 10⟩, ⟨2, "B", 1⟩, ⟨3, "C", 1⟩, ⟨4, "D", 1⟩, ⟨5, "E", 1⟩]

/-- Two players rated 50 and 40. -/
def poolTwo : List Player := [⟨1, "A", 50⟩, ⟨2, "B", 40⟩]

/-- A random source whose first draw is 0 and all later raw values are 10:
under variation 5 the first player's rating moves by -5 and the second's by
+5. -/
def rngSkew : Rng := ⟨fun k => if k = 0 then 0 else 10, 0⟩

/-- A constant random source. -/
def rngConst : Rng := ⟨fun _ => 10, 0⟩

/-- One step of the best-result accumulation of the search loops
(lines 148-152): run `balanceTeams` on the trial input and keep it exactly
when its `ratingDifference` is strictly lower; a thrown error propagates. -/
def keepBetter (acc : Except String TeamPair) (t : List Player) : Except String TeamPair :=
  match acc, balanceTeams t with
  | .error e, _ => .error e
  | .ok _, .error e => .error e
  | .ok b, .ok c => .ok (if c.ratingDifference < b.ratingDifference then c else b)

/-! ### Store-passing embedding for the frame claim

The source mutates arrays in place (`Array.prototype.sort` at lines 37 and
44, the Fisher-Yates swaps at lines 223-225) but only ever on arrays it
allocated itself (`[...players]` spreads, `filter`, `map` and `slice`
results).  To make that observable, the operations are re-embedded over an
explicit store of arrays: the caller passes the *id* of its array, every
spread/filter/map/slice allocates a fresh id, and every in-place sort or
swap writes to the id it is called on.  Player records themselves are held
as values inside the arrays: the source contains no assignment to a player
field (`randomizePlayerRatings` builds new objects by spread), so no
separate object heap is needed for the claim.  The squads pushed onto
`team1`/`team2` are arrays created inside the call and handed to the caller
in the result; they are kept as values. -/

/-- The store of every allocated array, indexed by allocation order; an
array id is its `Nat` index in allocation order. -/
structure Heap where
  arrs : List (List Player)

/-- Allocate a fresh array, returning its id. -/
def Heap.alloc (h : Heap) (v : List Player) : Nat × Heap :=
  (h.arrs.length, ⟨h.arrs ++ [v]⟩)

/-- Read an array's contents (unallocated ids read as empty). -/
def Heap.read (h : Heap) (a : Nat) : List Player :=
  (h.arrs.get? a).getD []

/-- Overwrite an array in place (no-op on unallocated ids). -/
def Heap.write (h : Heap) (a : Nat) (v : List Player) : Heap :=
  ⟨h.arrs.set a v⟩

/-- Lines 31-41 over the store: allocate the `[...players]` copy of line
31; for an odd pool allocate the temporary copy of line 37 and sort it in
place, pick the substitute from it, and allocate the filtered working set
of line 40.  Returns the substitute, the id the `playersToBalance` variable
refers to, and the heap. -/
def workingSetH (players : List Player) (h : Heap) : Option Player × Nat × Heap :=
  let c1 := h.alloc players
  if players.length % 2 == 1 then
    let c2 := c1.2.alloc players
    let h2 := c2.2.write c2.1 (sortDesc (c2.2.read c2.1))
    match (h2.read c2.1).get? (players.length / 2) with
    | some s =>
      let c3 := h2.alloc (players.filter fun p => p.id ≠ s.id)
      (some s, c3.1, c3.2)
    | none => (none, c1.1, h2)
  else (none, c1.1, c1.2)

/-- `balanceTeams` over the store: the line-44 sort writes to the working
array (the copy of line 31, or the filter result of line 40); the caller's
array is only read. -/
def balanceTeamsH (a : Nat) (h : Heap) : Except String TeamPair × Heap :=
  let players := h.read a
  if players.length < 2 then (.error insufficientMsg, h)
  else
    let sel := workingSetH players h
    let h4 := sel.2.2.write sel.2.1 (sortDesc (sel.2.2.read sel.2.1))
    let st := greedyAssign (h4.read sel.2.1) ⟨[], [], 0, 0⟩
    match sel.1 with
    | some s =>
      let teamWithSub : Nat := if st.team1Rating ≤ st.team2Rating then 1 else 2
      let targetTeam := (if teamWithSub = 1 then st.team1 else st.team2) ++ [s]
      let rotationPlayer :=
        findClosestRatingPlayer s (targetTeam.filter fun p => p.id ≠ s.id)
      (.ok { team1 := if teamWithSub = 1 then targetTeam else st.team1
             team2 := if teamWithSub = 2 then targetTeam else st.team2
             ratingDifference := abs (st.team1Rating - st.team2Rating)
             substituteInfo :=
               match rotationPlayer with
               | some rp => some ⟨teamWithSub, ⟨s, rp⟩⟩
               | none => none }, h4)
    | none =>
      (.ok { team1 := st.team1
             team2 := st.team2
             ratingDifference := abs (st.team1Rating - st.team2Rating)
             substituteInfo := none }, h4)

/-- `randomizePlayerRatings` over the store: `map` reads the input array
and allocates a fresh array for the new records. -/
def randomizePlayerRatingsH (a : Nat) (v : Nat) (r : Rng) (h : Heap) :
    (Nat × Rng) × Heap :=
  let m := randomizePlayerRatings (h.read a) v r
  let c := h.alloc m.1
  ((c.1, m.2), c.2)

/-- The Fisher-Yates loop over the store: each iteration swaps two
positions of the array `a` in place. -/
def fisherYatesH (a : Nat) : Nat → Rng → Heap → Rng × Heap
  | 0, r, h => (r, h)
  | i + 1, r, h =>
    let d := r.next (i + 2)
    fisherYatesH a i d.2 (h.write a (listSwap (h.read a) (i + 1) d.1))

/-- `shuffleArray` over the store: allocate the `[...array]` copy of line
220, then swap inside the copy. -/
def shuffleArrayH (a : Nat) (r : Rng) (h : Heap) : (Nat × Rng) × Heap :=
  let c := h.alloc (h.read a)
  let res := fisherYatesH c.1 ((h.read a).length - 1) r c.2
  ((c.1, res.1), res.2)

/-- The search loop of `findBestTeamBalance` / `findRandomizedTeamBalance`
over the store. -/
def searchLoopH (a : Nat) (v : Nat) :
    TeamPair → Rng → Heap → Nat → (Except String TeamPair × Rng) × Heap
  | best, r, h, 0 => ((.ok best, r), h)
  | best, r, h, n + 1 =>
    let rp := randomizePlayerRatingsH a v r h
    let sh := shuffleArrayH rp.1.1 rp.1.2 rp.2
    let bal := balanceTeamsH sh.1.1 sh.2
    match bal.1 with
    | .error e => ((.error e, sh.1.2), bal.2)
    | .ok balance =>
      if balance.ratingDifference < best.ratingDifference then
        searchLoopH a v balance sh.1.2 bal.2 n
      else
        searchLoopH a v best sh.1.2 bal.2 n

/-- `findBestTeamBalance` over the store. -/
def findBestTeamBalanceH (a : Nat) (iterations : Nat) (r : Rng) (h : Heap) :
    (Except String TeamPair × Rng) × Heap :=
  if (h.read a).length < 2 then ((.error insufficientMsg, r), h)
  else
    let seed := balanceTeamsH a h
    match seed.1 with
    | .error e => ((.error e, r), seed.2)
    | .ok best => searchLoopH a 5 best r seed.2 iterations

/-- `findRandomizedTeamBalance` over the store. -/
def findRandomizedTeamBalanceH (a : Nat) (v iterations : Nat) (r : Rng) (h : Heap) :
    (Except String TeamPair × Rng) × Heap :=
  if (h.read a).length < 2 then ((.error insufficientMsg, r), h)
  else
    let rp := randomizePlayerRatingsH a v r h
    let seed := balanceTeamsH rp.1.1 rp.2
    match seed.1 with
    | .error e => ((.error e, rp.1.2), seed.2)
    | .ok best => searchLoopH a v best rp.1.2 seed.2 iterations

/-- The chunk loop of `createMultipleTeamPairs` over the store: each
`slice` allocates a fresh array (line 206) whether or not the chunk is
used. -/
def multiLoopH (a : Nat) (totalLen pairCount q : Nat) :
    List Nat → Rng → Heap → (Except String (List TeamPair) × Rng) × Heap
  | [], r, h => ((.ok [], r), h)
  | i :: idxs, r, h =>
    let chunk := listSlice (h.read a) (i * q)
      (if i = pairCount - 1 then totalLen else (i + 1) * q)
    let ch := h.alloc chunk
    if 2 ≤ chunk.length then
      let fb := findBestTeamBalanceH ch.1 50 r ch.2
      match fb.1.1 with
      | .error e => ((.error e, fb.1.2), fb.2)
      | .ok tp =>
        let rest := multiLoopH a totalLen pairCount q idxs fb.1.2 fb.2
        match rest.1.1 with
        | .ok l => ((.ok (tp :: l), rest.1.2), rest.2)
        | .error e => ((.error e, rest.1.2), rest.2)
    else
      multiLoopH a totalLen pairCount q idxs r ch.2

/-- `createMultipleTeamPairs` over the store: the `[...players]` spread of
line 198 allocates, then `shuffleArray` copies again. -/
def createMultipleTeamPairsH (a : Nat) (pairCount : Nat) (r : Rng) (h : Heap) :
    (Except String (List TeamPair) × Rng) × Heap :=
  let players := h.read a
  if players.length < pairCount * 2 then
    ((.error (multiInsufficientMsg pairCount), r), h)
  else
    let c0 := h.alloc players
    let sh := shuffleArrayH c0.1 r c0.2
    multiLoopH sh.1.1 players.length pairCount (players.length / pairCount)
      (List.range pairCount) sh.1.2 sh.2

/-- `calculateTeamStats` over the store: it only reads its array (`reduce`,
`map` and the spread into `Math.min`/`Math.max` produce numbers or number
arrays, never player arrays, and nothing is written). -/
def calculateTeamStatsH (a : Nat) (h : Heap) : TeamStats × Heap :=
  (calculateTeamStats (h.read a), h)

/-- `h2` extends `h`: every array already allocated in `h` is still
present, unchanged, at the same id. -/
structure HeapExt (h h2 : Heap) : Prop where
  len_le : h.arrs.length ≤ h2.arrs.length
  read_eq : ∀ i, i < h.arrs.length → h2.arrs.get? i = h.arrs.get? i

/-! ### Helper lemmas: sorting -/

theorem insertDesc_perm (p : Player) (l : List Player) :
    List.Perm (insertDesc p l) (p :: l) := by
  induction l with
  | nil => simp [insertDesc]
  | cons q qs ih =>
    simp only [insertDesc]
    split
    · exact List.Perm.refl _
    · exact (ih.cons q).trans (List.Perm.swap p q qs)

theorem sortDesc_aux_perm (l acc : List Player) :
    List.Perm (l.foldl (fun a p => insertDesc p a) acc) (acc ++ l) := by
  induction l generalizing acc with
  | nil => simp
  | cons p ps ih =>
    simp only [List.foldl_cons]
    exact ((ih _).trans ((insertDesc_perm p acc).append_right ps)).trans
      List.perm_middle.symm

theorem sortDesc_perm (l : List Player) : List.Perm (sortDesc l) l := by
  simpa using sortDesc_aux_perm l []

theorem sortDesc_length (l : List Player) : (sortDesc l).length = l.length :=
  (sortDesc_perm l).length_eq

theorem mem_sortDesc {p : Player} {l : List Player} (h : p ∈ sortDesc l) : p ∈ l :=
  (sortDesc_perm l).mem_iff.mp h

/-! ### Helper lemmas: the greedy loop -/

theorem greedyAssign_perm (l : List Player) (st : GreedyState) :
    List.Perm ((greedyAssign l st).team1 ++ (greedyAssign l st).team2)
      ((st.team1 ++ st.team2) ++ l) := by
  induction l generalizing st with
  | nil => simp [greedyAssign]
  | cons p ps ih =>
    simp only [greedyAssign]
    split
    · refine (ih _).trans (List.perm_iff_count.mpr fun a => ?_)
      simp [List.count_append, List.count_cons]
      omega
    · refine (ih _).trans (List.perm_iff_count.mpr fun a => ?_)
      simp [List.count_append, List.count_cons]

theorem greedyAssign_sums (l : List Player) (st : GreedyState)
    (h1 : st.team1Rating = ratingSum st.team1) (h2 : st.team2Rating = ratingSum st.team2) :
    (greedyAssign l st).team1Rating = ratingSum (greedyAssign l st).team1 ∧
    (greedyAssign l st).team2Rating = ratingSum (greedyAssign l st).team2 := by
  induction l generalizing st with
  | nil => exact ⟨h1, h2⟩
  | cons p ps ih =>
    simp only [greedyAssign]
    split
    · exact ih _ (by simp [ratingSum, h1]) (by simpa using h2)
    · exact ih _ (by simpa using h1) (by simp [ratingSum, h2])

/-! ### Helper lemmas: substitute selection and the id filter -/

theorem chooseSubstitute_mem {players : List Player} {s : Player}
    (h : chooseSubstitute players = some s) : s ∈ players := by
  unfold chooseSubstitute at h
  split at h
  · exact mem_sortDesc (List.get?_mem h)
  · exact absurd h (by simp)

theorem perm_cons_filter_ne_id {players : List Player} {s : Player}
    (hnd : (players.map Player.id).Nodup) (hs : s ∈ players) :
    List.Perm players (s :: players.filter fun p => p.id ≠ s.id) := by
  induction players with
  | nil => cases hs
  | cons a rest ih =>
    simp only [List.map_cons, List.nodup_cons] at hnd
    rcases List.mem_cons.mp hs with rfl | hs2
    · have hfilter : (rest.filter fun p => decide (p.id ≠ s.id)) = rest := by
        refine List.filter_eq_self.mpr fun x hx => ?_
        have hxid : x.id ≠ s.id := fun he => hnd.1 (he ▸ List.mem_map_of_mem Player.id hx)
        simpa using hxid
      simp only [List.filter_cons, decide_not, decide_eq_true_eq]
      rw [if_neg (by simp)]
      have hfilter2 : (rest.filter fun p => !decide (p.id = s.id)) = rest := by
        simpa [decide_not] using hfilter
      rw [hfilter2]
    · have hne : a.id ≠ s.id := by
        intro he
        exact hnd.1 (he ▸ List.mem_map_of_mem Player.id hs2)
      have hstep := ((ih hnd.2 hs2).cons a).trans
        (List.Perm.swap s a (rest.filter fun p => p.id ≠ s.id))
      have hgoal : s :: a :: rest.filter (fun p => p.id ≠ s.id)
          = s :: (a :: rest).filter (fun p => p.id ≠ s.id) := by
        simp [List.filter_cons, hne]
      exact hgoal ▸ hstep

theorem playersToBalance_perm {players : List Player} {s : Player}
    (hnd : (players.map Player.id).Nodup) (h : chooseSubstitute players = some s) :
    List.Perm players (s :: playersToBalance players) := by
  rw [playersToBalance, h]
  exact perm_cons_filter_ne_id hnd (chooseSubstitute_mem h)

theorem chooseSubstitute_isSome_of_odd {players : List Player}
    (hodd : players.length % 2 = 1) :
    ∃ s, chooseSubstitute players = some s := by
  unfold chooseSubstitute
  rw [if_pos (by simp [hodd])]
  have hlt : players.length / 2 < (sortDesc players).length := by
    rw [sortDesc_length]
    omega
  exact ⟨_, List.get?_eq_get hlt⟩

/-! ### Helper lemmas: the pre-substitute split and the assembled TeamPair -/

theorem preSubSplit_perm (players : List Player) :
    List.Perm ((preSubSplit players).team1 ++ (preSubSplit players).team2)
      (playersToBalance players) :=
  (greedyAssign_perm (sortDesc (playersToBalance players)) ⟨[], [], 0, 0⟩).trans
    (sortDesc_perm _)

theorem preSubSplit_sums (players : List Player) :
    (preSubSplit players).team1Rating = ratingSum (preSubSplit players).team1 ∧
    (preSubSplit players).team2Rating = ratingSum (preSubSplit players).team2 :=
  greedyAssign_sums _ _ (by simp [ratingSum]) (by simp [ratingSum])

theorem balanceTeamsCore_diff (players : List Player) :
    (balanceTeamsCore players).ratingDifference =
      abs ((preSubSplit players).team1Rating - (preSubSplit players).team2Rating) := by
  cases hch : chooseSubstitute players <;> simp [balanceTeamsCore, hch]

theorem balanceTeamsCore_team_perm (players : List Player)
    (hnd : (players.map Player.id).Nodup) :
    List.Perm ((balanceTeamsCore players).team1 ++ (balanceTeamsCore players).team2)
      players := by
  have hsplit := preSubSplit_perm players
  cases hch : chooseSubstitute players with
  | none =>
    have hptb : playersToBalance players = players := by
      simp [playersToBalance, hch]
    rw [hptb] at hsplit
    simpa [balanceTeamsCore, hch] using hsplit
  | some s =>
    have hp := playersToBalance_perm hnd hch
    by_cases hle : (preSubSplit players).team1Rating ≤ (preSubSplit players).team2Rating
    · have key : List.Perm
          (((preSubSplit players).team1 ++ [s]) ++ (preSubSplit players).team2)
          (s :: ((preSubSplit players).team1 ++ (preSubSplit players).team2)) := by
        rw [List.append_assoc]
        exact List.perm_middle
      simpa [balanceTeamsCore, hch, hle] using
        key.trans ((hsplit.cons s).trans hp.symm)
    · have key : List.Perm
          ((preSubSplit players).team1 ++ ((preSubSplit players).team2 ++ [s]))
          (s :: ((preSubSplit players).team1 ++ (preSubSplit players).team2)) := by
        rw [← List.append_assoc]
        exact List.perm_append_singleton s _
      simpa [balanceTeamsCore, hch, hle] using
        key.trans ((hsplit.cons s).trans hp.symm)

/-! ### Claim C1 -/

/-- C1 (counterexample): on the odd pool rated 3, 2, 1, `balanceTeams`
returns `ratingDifference = 2`, but the two final squads (substitute
included) both sum to 3, so the returned difference is *not* the absolute
difference of the final squad sums. -/
theorem claimC1_counterexample :
    diffMatchesFinalSums poolOdd3 = false ∧
    (balanceTeams poolOdd3).toOption.map (fun tp => tp.ratingDifference) = some 2 ∧
    (balanceTeams poolOdd3).toOption.map
      (fun tp => abs (ratingSum tp.team1 - ratingSum tp.team2)) = some 0 := by
  decide

/-- C1 (amended): for every pool of at least 2 players, the
`ratingDifference` returned by CoreSplit equals the absolute difference of
the two squads' rating sums *excluding* the substitute's contribution (the
sums accumulated by the greedy pass, before the substitute is appended); in
particular for even pools, where there is no substitute, it equals the
final squad-sum difference. -/
theorem claimC1_amended (players : List Player) (h2 : 2 ≤ players.length) :
    ∃ tp, balanceTeams players = .ok tp ∧
      tp.ratingDifference =
        abs (ratingSum (preSubSplit players).team1 -
          ratingSum (preSubSplit players).team2) ∧
      (chooseSubstitute players = none →
        tp.ratingDifference = abs (ratingSum tp.team1 - ratingSum tp.team2)) := by
  have hs1 := (preSubSplit_sums players).1
  have hs2 := (preSubSplit_sums players).2
  refine ⟨balanceTeamsCore players, ?_, ?_, ?_⟩
  · unfold balanceTeams
    rw [if_neg (by omega)]
  · rw [balanceTeamsCore_diff, hs1, hs2]
  · intro hch
    simp [balanceTeamsCore, hch, ← hs1, ← hs2]

/-- C1 (witness): the amended statement instantiated at the 5-player pool. -/
theorem claimC1_witness :
    2 ≤ pool5.length ∧
    (∃ tp, balanceTeams pool5 = .ok tp ∧
      tp.ratingDifference =
        abs (ratingSum (preSubSplit pool5).team1 -
          ratingSum (preSubSplit pool5).team2) ∧
      (chooseSubstitute pool5 = none →
        tp.ratingDifference = abs (ratingSum tp.team1 - ratingSum tp.team2))) :=
  ⟨by decide, claimC1_amended pool5 (by decide)⟩

/-! ### Claim C3 -/

/-- C3 (counterexample): at the 5-player scenario rated 100, 80, 60, 40, 20
the claimed trace is false — in particular the returned `ratingDifference`
is 0, not 20. -/
theorem claimC3_counterexample :
    claimC3Check pool5 = false ∧
    (balanceTeams pool5).toOption.map (fun tp => tp.ratingDifference) = some 0 := by
  decide

/-- C3 (amended): on players rated 100, 80, 60, 40, 20 the substitute is
indeed the rating-60 player, but the greedy split of the remaining four is
{100, 20} and {80, 40}, both summing 120; the sum tie favours team 1, so
the substitute joins team 1 (final member sums 180 vs 120), the rotation
partner is the rating-100 player, and `ratingDifference` is 0 (computed
from the pre-substitute sums 120 and 120). -/
theorem claimC3_amended :
    (balanceTeams pool5).toOption = some
      { team1 := [⟨1, "A", 100⟩, ⟨5, "E", 20⟩, ⟨3, "C", 60⟩]
        team2 := [⟨2, "B", 80⟩, ⟨4, "D", 40⟩]
        ratingDifference := 0
        substituteInfo := some ⟨1, ⟨⟨3, "C", 60⟩, ⟨1, "A", 100⟩⟩⟩ } ∧
    ratingSum (preSubSplit pool5).team1 = 120 ∧
    ratingSum (preSubSplit pool5).team2 = 120 ∧
    ratingSum [(⟨1, "A", 100⟩ : Player), ⟨5, "E", 20⟩, ⟨3, "C", 60⟩] = 180 := by
  decide

/-! ### Claim C4 -/

/-- C4 (counterexample): the odd pool rated 10, 1, 1, 1, 1 (distinct ids)
leaves pre-substitute squads of sizes 1 and 3 — no squad has exactly one
player more than the other (indeed this is impossible: the two
pre-substitute squads always hold an even total of players). -/
theorem claimC4_counterexample :
    poolSkewed5.length % 2 = 1 ∧ 3 ≤ poolSkewed5.length ∧
    (poolSkewed5.map Player.id).Nodup ∧
    preSubSizesDifferByOne poolSkewed5 = false ∧
    (preSubSplit poolSkewed5).team1.length = 1 ∧
    (preSubSplit poolSkewed5).team2.length = 3 := by
  decide

/-- C4 (amended): for every odd pool of at least 3 distinct-id players, the
two squads jointly contain exactly `n - 1` players before the substitute is
appended (their sizes need not differ by one — the total is even), and
whenever `substituteInfo` is present its `substitutePair.substitute` is a
member of the squad recorded in `teamWithSub`. -/
theorem claimC4_amended (players : List Player)
    (hodd : players.length % 2 = 1) (h3 : 3 ≤ players.length)
    (hnd : (players.map Player.id).Nodup) :
    (preSubSplit players).team1.length + (preSubSplit players).team2.length
        = players.length - 1 ∧
    ∃ tp, balanceTeams players = .ok tp ∧
      ∀ info, tp.substituteInfo = some info →
        info.substitutePair.substitute ∈
          (if info.teamWithSub = 1 then tp.team1 else tp.team2) := by
  obtain ⟨s, hch⟩ := chooseSubstitute_isSome_of_odd hodd
  constructor
  · have hlen := (preSubSplit_perm players).length_eq
    rw [List.length_append] at hlen
    have hpl := (playersToBalance_perm hnd hch).length_eq
    simp only [List.length_cons] at hpl
    omega
  · refine ⟨balanceTeamsCore players, ?_, ?_⟩
    · unfold balanceTeams
      rw [if_neg (by omega)]
    · intro info hinfo
      simp only [balanceTeamsCore, hch] at hinfo ⊢
      split at hinfo
      · rename_i rp hrot
        cases hinfo
        by_cases hle :
            (preSubSplit players).team1Rating ≤ (preSubSplit players).team2Rating
        · simp [hle]
        · simp [hle]
      · cases hinfo

/-- C4 (witness): the amended statement instantiated at the skewed
5-player pool. -/
theorem claimC4_witness :
    (preSubSplit poolSkewed5).team1.length + (preSubSplit poolSkewed5).team2.length
        = poolSkewed5.length - 1 ∧
    ∃ tp, balanceTeams poolSkewed5 = .ok tp ∧
      ∀ info, tp.substituteInfo = some info →
        info.substitutePair.substitute ∈
          (if info.teamWithSub = 1 then tp.team1 else tp.team2) :=
  claimC4_amended poolSkewed5 (by decide) (by decide) (by decide)

/-! ### Claim C5 -/

/-- C5: for every pool of at least 2 players with pairwise distinct ids,
the players of the two returned squads taken together are a permutation of
the input pool — every input player appears in exactly one squad — and so
in particular the multiset of ids of `team1 ++ team2` equals the multiset
of input ids. -/
theorem claimC5_partition (players : List Player)
    (h2 : 2 ≤ players.length) (hnd : (players.map Player.id).Nodup) :
    ∃ tp, balanceTeams players = .ok tp ∧
      List.Perm ((tp.team1 ++ tp.team2).map Player.id) (players.map Player.id) ∧
      List.Perm (tp.team1 ++ tp.team2) players := by
  refine ⟨balanceTeamsCore players, ?_,
    (balanceTeamsCore_team_perm players hnd).map Player.id,
    balanceTeamsCore_team_perm players hnd⟩
  unfold balanceTeams
  rw [if_neg (by omega)]

/-- C5 (witness): the partition statement instantiated at the 5-player
pool. -/
theorem claimC5_witness :
    ∃ tp, balanceTeams pool5 = .ok tp ∧
      List.Perm ((tp.team1 ++ tp.team2).map Player.id) (pool5.map Player.id) ∧
      List.Perm (tp.team1 ++ tp.team2) pool5 :=
  claimC5_partition pool5 (by decide) (by decide)

/-! ### Helper lemmas: swapping, shuffling and rating perturbation -/

theorem count_ite_comm {α : Type _} [DecidableEq α] (a b : α) :
    (if a = b then (1 : Nat) else 0) = if b = a then 1 else 0 := by
  by_cases h : a = b
  · simp [h]
  · simp [h, Ne.symm h]

theorem count_set_add {α : Type _} [DecidableEq α] :
    ∀ (l : List α) (i : Nat) (h : i < l.length) (y x : α),
      (l.set i y).count x + (if l[i] = x then 1 else 0) =
        l.count x + (if y = x then 1 else 0)
  | [], i, h, y, x => by simp at h
  | a :: as, 0, h, y, x => by
    simp only [List.set_cons_zero, List.getElem_cons_zero, List.count_cons, beq_iff_eq]
    rw [count_ite_comm a x, count_ite_comm y x]
    omega
  | a :: as, n + 1, h, y, x => by
    have hn : n < as.length := by simpa using h
    have ih := count_set_add as n hn y x
    simp only [List.set_cons_succ, List.getElem_cons_succ, List.count_cons, beq_iff_eq]
    omega

theorem listSwap_perm (l : List Player) (i j : Nat) :
    List.Perm (listSwap l i j) l := by
  unfold listSwap
  split
  · rename_i x y hx hy
    rw [List.get?_eq_getElem?] at hx hy
    obtain ⟨hi, hxv⟩ := List.getElem?_eq_some_iff.mp hx
    obtain ⟨hj, hyv⟩ := List.getElem?_eq_some_iff.mp hy
    refine List.perm_iff_count.mpr fun a => ?_
    have e1 := count_set_add l i hi y a
    rw [hxv] at e1
    have hj2 : j < (l.set i y).length := by simpa using hj
    have e2 := count_set_add (l.set i y) j hj2 x a
    have hgs : getElem (l.set i y) j hj2 = y := by
      by_cases hij : i = j
      · subst hij
        exact List.getElem_set_self hj2
      · rw [List.getElem_set_ne hij]
        exact hyv
    rw [hgs] at e2
    omega
  · exact List.Perm.refl l

theorem fisherYates_perm (n : Nat) : ∀ (l : List Player) (r : Rng),
    List.Perm (fisherYates l r n).1 l := by
  induction n with
  | zero => intro l r; exact List.Perm.refl l
  | succ n ih =>
    intro l r
    simp only [fisherYates]
    exact (ih _ _).trans (listSwap_perm l (n + 1) _)

theorem shuffleArray_perm (l : List Player) (r : Rng) :
    List.Perm (shuffleArray l r).1 l :=
  fisherYates_perm (l.length - 1) l r

theorem shuffleArray_length (l : List Player) (r : Rng) :
    (shuffleArray l r).1.length = l.length :=
  (shuffleArray_perm l r).length_eq

theorem randomizePlayerRatings_length (players : List Player) (v : Nat) :
    ∀ r : Rng, (randomizePlayerRatings players v r).1.length = players.length := by
  induction players with
  | nil => intro r; rfl
  | cons p ps ih =>
    intro r
    simp only [randomizePlayerRatings, List.length_cons]
    rw [ih]

theorem randomize_perturbed (players : List Player) (v : Nat) :
    ∀ r : Rng, PerturbedCopy v players (randomizePlayerRatings players v r).1 := by
  induction players with
  | nil =>
    intro r
    exact ⟨rfl, fun k hk => absurd hk (by simp)⟩
  | cons p ps ih =>
    intro r
    refine ⟨by rw [randomizePlayerRatings_length], ?_⟩
    intro k hk
    cases k with
    | zero =>
      have hraw : r.g r.k % (v * 2 + 1) < v * 2 + 1 := Nat.mod_lt _ (by omega)
      refine ⟨_, p, rfl, rfl, rfl, rfl, (getRandomVariation v r).1, ?_, ?_, rfl⟩
      · simp only [getRandomVariation, Rng.next]
        omega
      · simp only [getRandomVariation, Rng.next]
        omega
    | succ k =>
      have hk2 : k < ps.length := by simpa using hk
      obtain ⟨pm, po, hm, ho, h1, h2s, d, hd1, hd2, hd3⟩ :=
        (ih (getRandomVariation v r).2).2 k hk2
      exact ⟨pm, po, hm, ho, h1, h2s, d, hd1, hd2, hd3⟩

/-- Folding `keepBetter` from an error stays that error. -/
theorem foldl_keepBetter_error (e : String) (ts : List (List Player)) :
    ts.foldl keepBetter (.error e) = .error e := by
  induction ts with
  | nil => rfl
  | cons t ts ih => simpa [keepBetter] using ih

/-- The search loop consults `balanceTeams` on exactly the inputs listed by
`trialInputs`: its result is the `keepBetter` fold over them. -/
theorem searchLoop_eq_fold (players : List Player) (v : Nat) :
    ∀ (n : Nat) (best : TeamPair) (r : Rng),
    (searchLoop players v best r n).1 =
      (trialInputs players v r n).foldl keepBetter (.ok best) := by
  intro n
  induction n with
  | zero => intro best r; rfl
  | succ n ih =>
    intro best r
    simp only [searchLoop, trialInputs, List.foldl_cons]
    cases hb : balanceTeams (shuffleArray
        (randomizePlayerRatings players v r).1
        (randomizePlayerRatings players v r).2).1 with
    | error e => simp [keepBetter, hb, foldl_keepBetter_error]
    | ok c =>
      simp only [keepBetter, hb]
      split
      · exact ih _ _
      · exact ih _ _

/-! ### Claim C2 -/

/-- C2 (counterexample): with two players rated 50 and 40 and a random
source whose draws perturb the first rating by -5 and the second by +5, the
single trial of BestOfN feeds CoreSplit the list [B(45), A(45)] — not a
permutation of the original records: both ratings were modified, refuting
"ratings unmodified, only the ordering varies". -/
theorem claimC2_counterexample :
    2 ≤ poolTwo.length ∧
    trialsPreserveRatings poolTwo rngSkew 1 = false ∧
    trialInputs poolTwo 5 rngSkew 1 = [[⟨2, "B", 45⟩, ⟨1, "A", 45⟩]] := by
  decide

/-- C2 (amended): for every input of at least 2 players, every iterations
value and every behaviour of the random source, each trial of BestOfN runs
CoreSplit on a randomly shuffled permutation of a *rating-perturbed copy*
of the same player set: the copy keeps every player's id and name in place
and moves each rating by an independent offset in [-5, 5], clamping to
[1, 100]; only the ordering of that perturbed copy varies between trials. -/
theorem claimC2_amended (players : List Player) (_h2 : 2 ≤ players.length)
    (r : Rng) (iterations : Nat) :
    ∀ t ∈ trialInputs players 5 r iterations,
      ∃ mid, PerturbedCopy 5 players mid ∧ List.Perm t mid := by
  induction iterations generalizing r with
  | zero =>
    intro t ht
    simp [trialInputs] at ht
  | succ n ih =>
    intro t ht
    simp only [trialInputs] at ht
    rcases List.mem_cons.mp ht with rfl | hmem
    · exact ⟨(randomizePlayerRatings players 5 r).1,
        randomize_perturbed players 5 r,
        shuffleArray_perm _ _⟩
    · exact ih _ _ hmem

/-- C2 (witness): the amended statement instantiated at the two-player pool
and the skewed random source. -/
theorem claimC2_witness :
    2 ≤ poolTwo.length ∧
    ∀ t ∈ trialInputs poolTwo 5 rngSkew 1,
      ∃ mid, PerturbedCopy 5 poolTwo mid ∧ List.Perm t mid :=
  ⟨by decide, claimC2_amended poolTwo (by decide) rngSkew 1⟩

/-! ### Claim C6 -/

/-- On a pool of at least 2 players every trial succeeds, and the search
loop's result is never worse than the best it started from. -/
theorem searchLoop_ok_le (players : List Player) (h2 : 2 ≤ players.length) (v : Nat) :
    ∀ (n : Nat) (best : TeamPair) (r : Rng),
    ∃ tp r2, searchLoop players v best r n = (.ok tp, r2) ∧
      tp.ratingDifference ≤ best.ratingDifference := by
  intro n
  induction n with
  | zero => intro best r; exact ⟨best, r, rfl, le_refl _⟩
  | succ n ih =>
    intro best r
    have hlen : (shuffleArray (randomizePlayerRatings players v r).1
        (randomizePlayerRatings players v r).2).1.length = players.length := by
      rw [shuffleArray_length, randomizePlayerRatings_length]
    have hok : balanceTeams (shuffleArray (randomizePlayerRatings players v r).1
          (randomizePlayerRatings players v r).2).1 =
        .ok (balanceTeamsCore (shuffleArray (randomizePlayerRatings players v r).1
          (randomizePlayerRatings players v r).2).1) := by
      unfold balanceTeams
      rw [if_neg (by omega)]
    simp only [searchLoop, hok]
    split
    · rename_i hlt
      obtain ⟨tp, r2, heq, hle⟩ := ih _ _
      exact ⟨tp, r2, heq, hle.trans (le_of_lt hlt)⟩
    · rename_i hge
      exact ih _ _

/-- C6: for every input of at least 2 players, every iterations value and
every behaviour of the random source, the `ratingDifference` returned by
BestOfN is less than or equal to the `ratingDifference` returned by
CoreSplit on the same input. -/
theorem claimC6_monotone (players : List Player) (h2 : 2 ≤ players.length)
    (iterations : Nat) (r : Rng) :
    ∃ tp tp0 r2, findBestTeamBalance players iterations r = (.ok tp, r2) ∧
      balanceTeams players = .ok tp0 ∧
      tp.ratingDifference ≤ tp0.ratingDifference := by
  have hok : balanceTeams players = .ok (balanceTeamsCore players) := by
    unfold balanceTeams
    rw [if_neg (by omega)]
  obtain ⟨tp, r2, hloop, hle⟩ :=
    searchLoop_ok_le players h2 5 iterations (balanceTeamsCore players) r
  refine ⟨tp, balanceTeamsCore players, r2, ?_, hok, hle⟩
  unfold findBestTeamBalance
  rw [if_neg (by omega), hok]
  exact hloop

/-- C6 (witness): the monotonicity statement instantiated at the 5-player
pool with 3 iterations and a constant random source. -/
theorem claimC6_witness :
    ∃ tp tp0 r2, findBestTeamBalance pool5 3 rngConst = (.ok tp, r2) ∧
      balanceTeams pool5 = .ok tp0 ∧
      tp.ratingDifference ≤ tp0.ratingDifference :=
  claimC6_monotone pool5 (by decide) 3 rngConst

/-! ### Helper lemmas: success of the randomized operations -/

theorem findBest_ok (players : List Player) (h2 : 2 ≤ players.length)
    (iterations : Nat) (r : Rng) :
    ∃ tp r2, findBestTeamBalance players iterations r = (.ok tp, r2) := by
  obtain ⟨tp, r2, hloop, _⟩ :=
    searchLoop_ok_le players h2 5 iterations (balanceTeamsCore players) r
  refine ⟨tp, r2, ?_⟩
  unfold findBestTeamBalance
  rw [if_neg (by omega)]
  have hok : balanceTeams players = .ok (balanceTeamsCore players) := by
    unfold balanceTeams
    rw [if_neg (by omega)]
  rw [hok]
  exact hloop

theorem findRandomized_ok (players : List Player) (h2 : 2 ≤ players.length)
    (v iterations : Nat) (r : Rng) :
    ∃ tp r2, findRandomizedTeamBalance players v iterations r = (.ok tp, r2) := by
  have hlen : (randomizePlayerRatings players v r).1.length = players.length :=
    randomizePlayerRatings_length players v r
  have hok : balanceTeams (randomizePlayerRatings players v r).1
      = .ok (balanceTeamsCore (randomizePlayerRatings players v r).1) := by
    unfold balanceTeams
    rw [if_neg (by omega)]
  obtain ⟨tp, r2, hloop, _⟩ := searchLoop_ok_le players h2 v iterations
    (balanceTeamsCore (randomizePlayerRatings players v r).1)
    (randomizePlayerRatings players v r).2
  refine ⟨tp, r2, ?_⟩
  unfold findRandomizedTeamBalance
  rw [if_neg (by omega)]
  simp only [hok]
  exact hloop

theorem multiLoop_ok (shuffled : List Player) (n c q : Nat) :
    ∀ (idxs : List Nat) (r : Rng),
    ∃ l r2, multiLoop shuffled n c q idxs r = (.ok l, r2) := by
  intro idxs
  induction idxs with
  | nil => intro r; exact ⟨[], r, rfl⟩
  | cons i idxs ih =>
    intro r
    simp only [multiLoop]
    split
    · rename_i hge
      obtain ⟨tp, r2, hfb⟩ := findBest_ok _ hge 50 r
      obtain ⟨l, r3, hrec⟩ := ih r2
      refine ⟨tp :: l, r3, ?_⟩
      rw [hfb]
      simp [hrec]
    · exact ih r

theorem multiLoop_full (shuffled : List Player) (n c q : Nat) :
    ∀ (idxs : List Nat),
    (∀ i ∈ idxs, 2 ≤ (multiChunk shuffled n c q i).length) →
    ∀ r : Rng,
    ∃ l r2, multiLoop shuffled n c q idxs r = (.ok l, r2) ∧ l.length = idxs.length := by
  intro idxs
  induction idxs with
  | nil => intro _ r; exact ⟨[], r, rfl, rfl⟩
  | cons i idxs ih =>
    intro hall r
    have hge : 2 ≤ (multiChunk shuffled n c q i).length :=
      hall i (List.mem_cons_self i idxs)
    simp only [multiLoop]
    rw [if_pos hge]
    obtain ⟨tp, r2, hfb⟩ := findBest_ok _ hge 50 r
    obtain ⟨l, r3, hrec, hlen⟩ := ih (fun j hj => hall j (List.mem_cons_of_mem i hj)) r2
    refine ⟨tp :: l, r3, ?_, by simp [hlen]⟩
    rw [hfb]
    simp [hrec]

theorem multiChunk_length_ge (shuffled : List Player) (n c i : Nat)
    (hsh : shuffled.length = n) (hc : 1 ≤ c) (hn : c * 2 ≤ n) (hi : i < c) :
    2 ≤ (multiChunk shuffled n c (n / c) i).length := by
  have hq2 : 2 ≤ n / c := (Nat.le_div_iff_mul_le hc).mpr (by omega)
  have hcq : c * (n / c) ≤ n := by
    rw [Nat.mul_comm]
    exact Nat.div_mul_le_self n c
  unfold multiChunk listSlice
  rw [List.length_take, List.length_drop, hsh]
  set q := n / c with hqdef
  by_cases hlast : i = c - 1
  · rw [if_pos hlast]
    have h1 : (c - 1) * q + q = c * q := by
      have hsucc : c - 1 + 1 = c := Nat.succ_pred_eq_of_pos hc
      calc (c - 1) * q + q = (c - 1 + 1) * q := by ring
        _ = c * q := by rw [hsucc]
    rw [hlast]
    omega
  · rw [if_neg hlast]
    have h3 : (i + 1) * q ≤ c * q := Nat.mul_le_mul_right _ hi
    have h4 : (i + 1) * q = i * q + q := by ring
    omega

/-! ### Claim C7 -/

/-- C7: each operation fails exactly when its minimum-player-count
precondition is violated, and the failure is precisely the
InsufficientPlayers error (with the random source untouched): CoreSplit,
BestOfN and RandomizedBestOfN succeed iff the input has at least 2 players,
MultiMatchSplit succeeds iff the input has at least `matchCount * 2`
players, and no other error is ever produced. -/
theorem claimC7_errors (players : List Player) (v iterations c : Nat) (r : Rng) :
    ((∃ tp, balanceTeams players = .ok tp) ↔ 2 ≤ players.length) ∧
    (players.length < 2 → balanceTeams players = .error insufficientMsg) ∧
    ((∃ tp r2, findBestTeamBalance players iterations r = (.ok tp, r2)) ↔
      2 ≤ players.length) ∧
    (players.length < 2 →
      findBestTeamBalance players iterations r = (.error insufficientMsg, r)) ∧
    ((∃ tp r2, findRandomizedTeamBalance players v iterations r = (.ok tp, r2)) ↔
      2 ≤ players.length) ∧
    (players.length < 2 →
      findRandomizedTeamBalance players v iterations r = (.error insufficientMsg, r)) ∧
    ((∃ l r2, createMultipleTeamPairs players c r = (.ok l, r2)) ↔
      c * 2 ≤ players.length) ∧
    (players.length < c * 2 →
      createMultipleTeamPairs players c r = (.error (multiInsufficientMsg c), r)) := by
  refine ⟨⟨?_, ?_⟩, ?_, ⟨?_, ?_⟩, ?_, ⟨?_, ?_⟩, ?_, ⟨?_, ?_⟩, ?_⟩
  · rintro ⟨tp, htp⟩
    by_contra hlt
    unfold balanceTeams at htp
    rw [if_pos (by omega)] at htp
    cases htp
  · intro h2
    exact ⟨balanceTeamsCore players, by unfold balanceTeams; rw [if_neg (by omega)]⟩
  · intro hlt
    unfold balanceTeams
    rw [if_pos (by omega)]
  · rintro ⟨tp, r2, htp⟩
    by_contra hlt
    unfold findBestTeamBalance at htp
    rw [if_pos (by omega)] at htp
    simp at htp
  · intro h2
    exact findBest_ok players h2 iterations r
  · intro hlt
    unfold findBestTeamBalance
    rw [if_pos (by omega)]
  · rintro ⟨tp, r2, htp⟩
    by_contra hlt
    unfold findRandomizedTeamBalance at htp
    rw [if_pos (by omega)] at htp
    simp at htp
  · intro h2
    exact findRandomized_ok players h2 v iterations r
  · intro hlt
    unfold findRandomizedTeamBalance
    rw [if_pos (by omega)]
  · rintro ⟨l, r2, hl⟩
    by_contra hlt
    unfold createMultipleTeamPairs at hl
    rw [if_pos (by omega)] at hl
    simp at hl
  · intro h2
    unfold createMultipleTeamPairs
    rw [if_neg (by omega)]
    obtain ⟨l, r2, hl⟩ := multiLoop_ok (shuffleArray players r).1 players.length c
      (players.length / c) (List.range c) (shuffleArray players r).2
    exact ⟨l, r2, hl⟩
  · intro hlt
    unfold createMultipleTeamPairs
    rw [if_pos (by omega)]

/-- C7 (witness): instantiated at the two-player pool with matchCount 1. -/
theorem claimC7_witness :
    ((∃ tp, balanceTeams poolTwo = .ok tp) ↔ 2 ≤ poolTwo.length) ∧
    (poolTwo.length < 2 → balanceTeams poolTwo = .error insufficientMsg) ∧
    ((∃ tp r2, findBestTeamBalance poolTwo 2 rngConst = (.ok tp, r2)) ↔
      2 ≤ poolTwo.length) ∧
    (poolTwo.length < 2 →
      findBestTeamBalance poolTwo 2 rngConst = (.error insufficientMsg, rngConst)) ∧
    ((∃ tp r2, findRandomizedTeamBalance poolTwo 5 2 rngConst = (.ok tp, r2)) ↔
      2 ≤ poolTwo.length) ∧
    (poolTwo.length < 2 →
      findRandomizedTeamBalance poolTwo 5 2 rngConst = (.error insufficientMsg, rngConst)) ∧
    ((∃ l r2, createMultipleTeamPairs poolTwo 1 rngConst = (.ok l, r2)) ↔
      1 * 2 ≤ poolTwo.length) ∧
    (poolTwo.length < 1 * 2 →
      createMultipleTeamPairs poolTwo 1 rngConst = (.error (multiInsufficientMsg 1), rngConst)) :=
  claimC7_errors poolTwo 5 2 1 rngConst

/-! ### Claim C10 -/

/-- C10: for every pool of at least `matchCount * 2` players with
`matchCount ≥ 1` and every behaviour of the random source, MultiMatchSplit
returns exactly `matchCount` TeamPairs: every contiguous chunk holds at
least `⌊n / matchCount⌋ ≥ 2` players, so the guard that silently skips
chunks of size < 2 never fires under the stated precondition. -/
theorem claimC10_full (players : List Player) (c : Nat) (r : Rng)
    (hc : 1 ≤ c) (hn : c * 2 ≤ players.length) :
    2 ≤ players.length / c ∧
    (∀ i, i < c →
      2 ≤ (multiChunk (shuffleArray players r).1 players.length c
        (players.length / c) i).length) ∧
    ∃ l r2, createMultipleTeamPairs players c r = (.ok l, r2) ∧ l.length = c := by
  have hsh : (shuffleArray players r).1.length = players.length :=
    shuffleArray_length players r
  have hchunk : ∀ i, i < c →
      2 ≤ (multiChunk (shuffleArray players r).1 players.length c
        (players.length / c) i).length :=
    fun i hi => multiChunk_length_ge _ _ _ _ hsh hc hn hi
  refine ⟨(Nat.le_div_iff_mul_le hc).mpr (by omega), hchunk, ?_⟩
  unfold createMultipleTeamPairs
  rw [if_neg (by omega)]
  obtain ⟨l, r2, hl, hlen⟩ := multiLoop_full (shuffleArray players r).1
    players.length c (players.length / c) (List.range c)
    (fun i hi => hchunk i (List.mem_range.mp hi)) (shuffleArray players r).2
  exact ⟨l, r2, hl, by simpa using hlen⟩

/-- C10 (witness): instantiated at a 5-player pool split into 2 matches. -/
theorem claimC10_witness :
    2 ≤ pool5.length / 2 ∧
    (∀ i, i < 2 →
      2 ≤ (multiChunk (shuffleArray pool5 rngConst).1 pool5.length 2
        (pool5.length / 2) i).length) ∧
    ∃ l r2, createMultipleTeamPairs pool5 2 rngConst = (.ok l, r2) ∧ l.length = 2 :=
  claimC10_full pool5 2 rngConst (by decide) (by decide)

/-! ### Claim C9 -/

/-- C9: CoreSplit is deterministic and consults no random source.  With the
random source threaded through the call (as the embedding of a body that
contains no `Math.random()`), the result is independent of the source's
behaviour and the source comes back unconsumed; in particular two calls on
the identical ordered input return structurally identical TeamPairs — same
squads in the same order, same `ratingDifference`, same `substituteInfo`.
(The only other potential order sensitivity, the ECMAScript sort, is stable
and hence a deterministic function of the input order.) -/
theorem claimC9_deterministic (players : List Player) (r1 r2 : Rng) :
    (balanceTeamsRng players r1).1 = (balanceTeamsRng players r2).1 ∧
    (balanceTeamsRng players r1).2 = r1 ∧
    ∀ tp tp2, (balanceTeamsRng players r1).1 = .ok tp →
      (balanceTeamsRng players r2).1 = .ok tp2 →
      tp.team1 = tp2.team1 ∧ tp.team2 = tp2.team2 ∧
      tp.ratingDifference = tp2.ratingDifference ∧
      tp.substituteInfo = tp2.substituteInfo := by
  refine ⟨rfl, rfl, ?_⟩
  intro tp tp2 h1 hb
  have he : (balanceTeamsRng players r2).1 = (balanceTeamsRng players r1).1 := rfl
  rw [he, h1] at hb
  cases hb
  exact ⟨rfl, rfl, rfl, rfl⟩

/-- C9 (witness): instantiated at the 5-player pool and two different
random sources. -/
theorem claimC9_witness :
    (balanceTeamsRng pool5 rngConst).1 = (balanceTeamsRng pool5 rngSkew).1 ∧
    (balanceTeamsRng pool5 rngConst).2 = rngConst ∧
    ∀ tp tp2, (balanceTeamsRng pool5 rngConst).1 = .ok tp →
      (balanceTeamsRng pool5 rngSkew).1 = .ok tp2 →
      tp.team1 = tp2.team1 ∧ tp.team2 = tp2.team2 ∧
      tp.ratingDifference = tp2.ratingDifference ∧
      tp.substituteInfo = tp2.substituteInfo :=
  claimC9_deterministic pool5 rngConst rngSkew

/-! ### Frame lemmas for the store-passing embedding -/

theorem heapExt_refl (h : Heap) : HeapExt h h :=
  ⟨le_refl _, fun _ _ => rfl⟩

theorem heapExt_trans {h1 h2 h3 : Heap} (a : HeapExt h1 h2) (b : HeapExt h2 h3) :
    HeapExt h1 h3 :=
  ⟨a.len_le.trans b.len_le,
   fun i hi => (b.read_eq i (lt_of_lt_of_le hi a.len_le)).trans (a.read_eq i hi)⟩

theorem alloc_fst (h : Heap) (v : List Player) : (h.alloc v).1 = h.arrs.length := rfl

theorem alloc_len (h : Heap) (v : List Player) :
    (h.alloc v).2.arrs.length = h.arrs.length + 1 := by
  simp [Heap.alloc]

theorem write_len (h : Heap) (j : Nat) (v : List Player) :
    (h.write j v).arrs.length = h.arrs.length := by
  simp [Heap.write]

theorem heapExt_alloc (h : Heap) (v : List Player) : HeapExt h (h.alloc v).2 := by
  refine ⟨by rw [alloc_len]; omega, ?_⟩
  intro i hi
  simp only [Heap.alloc, List.get?_eq_getElem?]
  exact List.getElem?_append_left hi

theorem heapExt_alloc_of {h h2 : Heap} (he : HeapExt h h2) (v : List Player) :
    HeapExt h (h2.alloc v).2 :=
  heapExt_trans he (heapExt_alloc h2 v)

theorem heapExt_write_of_ge {h h2 : Heap} (he : HeapExt h h2) {j : Nat}
    (hj : h.arrs.length ≤ j) (v : List Player) : HeapExt h (h2.write j v) := by
  refine ⟨by rw [write_len]; exact he.len_le, ?_⟩
  intro i hi
  simp only [Heap.write, List.get?_eq_getElem?]
  rw [List.getElem?_set_ne (by omega)]
  have hr := he.read_eq i hi
  simpa using hr

theorem heapExt_read {h h2 : Heap} (he : HeapExt h h2) {i : Nat}
    (hi : i < h.arrs.length) : h2.read i = h.read i := by
  unfold Heap.read
  rw [he.read_eq i hi]

theorem workingSetH_frame (players : List Player) (h : Heap) :
    HeapExt h (workingSetH players h).2.2 ∧
    h.arrs.length ≤ (workingSetH players h).2.1 := by
  simp only [workingSetH]
  split
  · split
    · rename_i s hs
      refine ⟨?_, ?_⟩
      · exact heapExt_alloc_of (heapExt_write_of_ge
          (heapExt_alloc_of (heapExt_alloc h players) players)
          (by rw [alloc_fst, alloc_len]; omega) _) _
      · have he3 := heapExt_write_of_ge
          (heapExt_alloc_of (heapExt_alloc h players) players)
          (show h.arrs.length ≤ ((h.alloc players).2.alloc players).1 by
            rw [alloc_fst, alloc_len]; omega)
          (sortDesc (((h.alloc players).2.alloc players).2.read
            ((h.alloc players).2.alloc players).1))
        exact he3.len_le
    · refine ⟨?_, ?_⟩
      · exact heapExt_write_of_ge (heapExt_alloc_of (heapExt_alloc h players) players)
          (by rw [alloc_fst, alloc_len]; omega) _
      · rw [alloc_fst]
  · exact ⟨heapExt_alloc h players, le_refl _⟩

theorem balanceTeamsH_ext (a : Nat) (h : Heap) : HeapExt h (balanceTeamsH a h).2 := by
  simp only [balanceTeamsH]
  split
  · exact heapExt_refl h
  · have hw := workingSetH_frame (h.read a) h
    split
    · exact heapExt_write_of_ge hw.1 hw.2 _
    · exact heapExt_write_of_ge hw.1 hw.2 _

theorem randomizeH_ext (a : Nat) (v : Nat) (r : Rng) (h : Heap) :
    HeapExt h (randomizePlayerRatingsH a v r h).2 :=
  heapExt_alloc h _

theorem fisherYatesH_ext (a : Nat) (n : Nat) :
    ∀ (r : Rng) (h0 h : Heap), HeapExt h0 h → h0.arrs.length ≤ a →
    HeapExt h0 (fisherYatesH a n r h).2 := by
  induction n with
  | zero => intro r h0 h he _; exact he
  | succ n ih =>
    intro r h0 h he ha
    simp only [fisherYatesH]
    exact ih _ h0 _ (heapExt_write_of_ge he ha _) ha

theorem shuffleArrayH_ext (a : Nat) (r : Rng) (h : Heap) :
    HeapExt h (shuffleArrayH a r h).2 := by
  simp only [shuffleArrayH]
  exact fisherYatesH_ext _ _ _ h _ (heapExt_alloc h _) (by rw [alloc_fst])

theorem searchLoopH_ext (a : Nat) (v : Nat) :
    ∀ (n : Nat) (best : TeamPair) (r : Rng) (h : Heap),
    HeapExt h (searchLoopH a v best r h n).2 := by
  intro n
  induction n with
  | zero => intro best r h; exact heapExt_refl h
  | succ n ih =>
    intro best r h
    simp only [searchLoopH]
    have hchain : HeapExt h (balanceTeamsH
        (shuffleArrayH (randomizePlayerRatingsH a v r h).1.1
          (randomizePlayerRatingsH a v r h).1.2
          (randomizePlayerRatingsH a v r h).2).1.1
        (shuffleArrayH (randomizePlayerRatingsH a v r h).1.1
          (randomizePlayerRatingsH a v r h).1.2
          (randomizePlayerRatingsH a v r h).2).2).2 :=
      heapExt_trans (heapExt_trans (randomizeH_ext a v r h) (shuffleArrayH_ext _ _ _))
        (balanceTeamsH_ext _ _)
    split
    · exact hchain
    · split
      · exact heapExt_trans hchain (ih _ _ _)
      · exact heapExt_trans hchain (ih _ _ _)

theorem findBestH_ext (a : Nat) (iterations : Nat) (r : Rng) (h : Heap) :
    HeapExt h (findBestTeamBalanceH a iterations r h).2 := by
  simp only [findBestTeamBalanceH]
  split
  · exact heapExt_refl h
  · split
    · exact balanceTeamsH_ext a h
    · exact heapExt_trans (balanceTeamsH_ext a h) (searchLoopH_ext a 5 iterations _ _ _)

theorem findRandomizedH_ext (a : Nat) (v iterations : Nat) (r : Rng) (h : Heap) :
    HeapExt h (findRandomizedTeamBalanceH a v iterations r h).2 := by
  simp only [findRandomizedTeamBalanceH]
  split
  · exact heapExt_refl h
  · have hchain : HeapExt h (balanceTeamsH (randomizePlayerRatingsH a v r h).1.1
        (randomizePlayerRatingsH a v r h).2).2 :=
      heapExt_trans (randomizeH_ext a v r h) (balanceTeamsH_ext _ _)
    split
    · exact hchain
    · exact heapExt_trans hchain (searchLoopH_ext a v iterations _ _ _)

theorem multiLoopH_ext (a : Nat) (totalLen pairCount q : Nat) :
    ∀ (idxs : List Nat) (r : Rng) (h : Heap),
    HeapExt h (multiLoopH a totalLen pairCount q idxs r h).2 := by
  intro idxs
  induction idxs with
  | nil => intro r h; exact heapExt_refl h
  | cons i idxs ih =>
    intro r h
    simp only [multiLoopH]
    generalize (listSlice (h.read a) (i * q)
      (if i = pairCount - 1 then totalLen else (i + 1) * q)) = chunk
    split
    · have hfb : HeapExt h
          (findBestTeamBalanceH (h.alloc chunk).1 50 r (h.alloc chunk).2).2 :=
        heapExt_trans (heapExt_alloc h chunk)
          (findBestH_ext (h.alloc chunk).1 50 r (h.alloc chunk).2)
      split
      · exact hfb
      · split
        · exact heapExt_trans hfb (ih _ _)
        · exact heapExt_trans hfb (ih _ _)
    · exact heapExt_trans (heapExt_alloc h chunk) (ih _ _)

theorem createMultipleH_ext (a : Nat) (pairCount : Nat) (r : Rng) (h : Heap) :
    HeapExt h (createMultipleTeamPairsH a pairCount r h).2 := by
  simp only [createMultipleTeamPairsH]
  split
  · exact heapExt_refl h
  · exact heapExt_trans (heapExt_trans (heapExt_alloc h _) (shuffleArrayH_ext _ _ _))
      (multiLoopH_ext _ _ _ _ _ _ _)

/-! ### Agreement of the store-passing embedding with the pure one -/

theorem read_alloc_self (h : Heap) (v : List Player) :
    (h.alloc v).2.read (h.alloc v).1 = v := by
  simp [Heap.alloc, Heap.read, List.getElem?_append_right]

theorem read_write_self (h : Heap) (j : Nat) (v : List Player)
    (hj : j < h.arrs.length) : (h.write j v).read j = v := by
  simp [Heap.write, Heap.read, List.getElem?_set_self hj]

theorem read_write_ne (h : Heap) (i j : Nat) (v : List Player) (hij : i ≠ j) :
    (h.write i v).read j = h.read j := by
  simp [Heap.write, Heap.read, List.getElem?_set_ne hij]

theorem workingSetH_agree (players : List Player) (h : Heap) :
    (workingSetH players h).1 = chooseSubstitute players ∧
    (workingSetH players h).2.2.read (workingSetH players h).2.1
      = playersToBalance players ∧
    (workingSetH players h).2.1 < (workingSetH players h).2.2.arrs.length := by
  have hc2read : ((h.alloc players).2.alloc players).2.read
      ((h.alloc players).2.alloc players).1 = players := read_alloc_self _ _
  have hc2lt : ((h.alloc players).2.alloc players).1
      < ((h.alloc players).2.alloc players).2.arrs.length := by
    simp only [alloc_fst, alloc_len]
    omega
  have hwrite : (((h.alloc players).2.alloc players).2.write
      ((h.alloc players).2.alloc players).1
      (sortDesc (((h.alloc players).2.alloc players).2.read
        ((h.alloc players).2.alloc players).1))).read
      ((h.alloc players).2.alloc players).1 = sortDesc players := by
    rw [read_write_self _ _ _ hc2lt, hc2read]
  simp only [workingSetH]
  split
  · rename_i hodd
    split
    · rename_i s hs
      rw [hwrite] at hs
      have hcs : chooseSubstitute players = some s := by
        unfold chooseSubstitute
        rw [if_pos hodd]
        exact hs
      refine ⟨hcs.symm, ?_, ?_⟩
      · rw [read_alloc_self]
        unfold playersToBalance
        rw [hcs]
      · simp only [alloc_fst, alloc_len, write_len]
        omega
    · rename_i hs
      rw [hwrite] at hs
      have hcs : chooseSubstitute players = none := by
        unfold chooseSubstitute
        rw [if_pos hodd]
        exact hs
      refine ⟨hcs.symm, ?_, ?_⟩
      · have hne : ((h.alloc players).2.alloc players).1 ≠ (h.alloc players).1 := by
          rw [alloc_fst, alloc_fst, alloc_len]
          omega
        have h1 : ((h.alloc players).2.alloc players).2.read (h.alloc players).1
            = (h.alloc players).2.read (h.alloc players).1 :=
          heapExt_read (heapExt_alloc _ _) (by simp only [alloc_fst, alloc_len]; omega)
        calc (((h.alloc players).2.alloc players).2.write
              ((h.alloc players).2.alloc players).1
              (sortDesc (((h.alloc players).2.alloc players).2.read
                ((h.alloc players).2.alloc players).1))).read (h.alloc players).1
            = ((h.alloc players).2.alloc players).2.read (h.alloc players).1 :=
              read_write_ne _ _ _ _ hne
          _ = (h.alloc players).2.read (h.alloc players).1 := h1
          _ = players := read_alloc_self _ _
          _ = playersToBalance players := by
              unfold playersToBalance
              rw [hcs]
      · simp only [alloc_fst, alloc_len, write_len]
        omega
  · rename_i hodd
    have hcs : chooseSubstitute players = none := by
      unfold chooseSubstitute
      rw [if_neg hodd]
    refine ⟨hcs.symm, ?_, ?_⟩
    · rw [read_alloc_self]
      unfold playersToBalance
      rw [hcs]
    · simp only [alloc_fst, alloc_len]
      omega

/-- The store-passing embedding of `balanceTeams` computes the same
operation as the pure one on the contents of the array it is handed. -/
theorem balanceTeamsH_agree (a : Nat) (h : Heap) :
    (balanceTeamsH a h).1 = balanceTeams (h.read a) := by
  obtain ⟨hsel, hread, hlt⟩ := workingSetH_agree (h.read a) h
  simp only [balanceTeamsH, balanceTeams]
  split
  · rfl
  · have h4read : (((workingSetH (h.read a) h).2.2.write
        ((workingSetH (h.read a) h)).2.1
        (sortDesc ((workingSetH (h.read a) h).2.2.read
          (workingSetH (h.read a) h).2.1))).read
        (workingSetH (h.read a) h).2.1
        = sortDesc (playersToBalance (h.read a))) := by
      rw [read_write_self _ _ _ hlt, hread]
    rw [hsel, h4read]
    cases hch : chooseSubstitute (h.read a) with
    | none => simp [balanceTeamsCore, hch, preSubSplit]
    | some s => simp [balanceTeamsCore, hch, preSubSplit]

/-! ### Claim C8 -/

/-- C8: every core operation, run over the explicit store, leaves every
previously allocated array — in particular the caller's player list —
unchanged: same contents, hence same length, order and elements, and no
player record's id, name or rating is mutated.  The in-place sorts, swaps
and rating perturbations only ever write to arrays the operations allocate
themselves (spread copies, `filter`/`map`/`slice` results). -/
theorem claimC8_frame (a caller : Nat) (h : Heap) (iterations v c : Nat)
    (r : Rng) (hc : caller < h.arrs.length) :
    (balanceTeamsH a h).2.read caller = h.read caller ∧
    (findBestTeamBalanceH a iterations r h).2.read caller = h.read caller ∧
    (findRandomizedTeamBalanceH a v iterations r h).2.read caller = h.read caller ∧
    (createMultipleTeamPairsH a c r h).2.read caller = h.read caller ∧
    (calculateTeamStatsH a h).2.read caller = h.read caller :=
  ⟨heapExt_read (balanceTeamsH_ext a h) hc,
   heapExt_read (findBestH_ext a iterations r h) hc,
   heapExt_read (findRandomizedH_ext a v iterations r h) hc,
   heapExt_read (createMultipleH_ext a c r h) hc,
   rfl⟩

/-- C8 (witness): a store holding only the caller's 5-player array, on
which each operation is run. -/
theorem claimC8_witness :
    (0 : Nat) < (Heap.mk [pool5]).arrs.length ∧
    ((balanceTeamsH 0 ⟨[pool5]⟩).2.read 0 = (Heap.mk [pool5]).read 0 ∧
     (findBestTeamBalanceH 0 2 rngConst ⟨[pool5]⟩).2.read 0 = (Heap.mk [pool5]).read 0 ∧
     (findRandomizedTeamBalanceH 0 5 2 rngConst ⟨[pool5]⟩).2.read 0
        = (Heap.mk [pool5]).read 0 ∧
     (createMultipleTeamPairsH 0 1 rngConst ⟨[pool5]⟩).2.read 0
        = (Heap.mk [pool5]).read 0 ∧
     (calculateTeamStatsH 0 ⟨[pool5]⟩).2.read 0 = (Heap.mk [pool5]).read 0) :=
  ⟨by decide, claimC8_frame 0 0 ⟨[pool5]⟩ 2 5 1 rngConst (by decide)⟩

end TeamOrganiser
